import Mathlib

/-!
Shallow embedding of `ext/nmatrix/storage/dense.cpp` — dense n-dimensional
matrix storage: buffer tiling on creation, reference-counted views, row-major
position computation, element-wise equality, Hermitian/symmetry predicates and
copying/casting.  The dtype-templated routines are modelled as polymorphic
functions over an explicit element type; the pointer graph (roots, views,
shared element buffers, reference counts) is modelled as a heap of storages
and buffers addressed by numeric ids.
-/

namespace NMatrix

/-- Element-kind tags (`dtype_t`).  The enumeration lives in the data headers,
which are outside this source file; the members named by `dense.cpp` itself
are `COMPLEX64`, `COMPLEX128` and `RUBYOBJ`, the rest are modelled from the
spec's closed dtype registry (integer widths, float widths, complex widths,
rationals and the object-handle kind). -/
inductive Dtype where
  | BYTE
  | INT8
  | INT16
  | INT32
  | INT64
  | FLOAT32
  | FLOAT64
  | COMPLEX64
  | COMPLEX128
  | RATIONAL32
  | RATIONAL64
  | RATIONAL128
  | RUBYOBJ
deriving DecidableEq

/-- A complex element value (`Complex64` / `Complex128`): real part `r` and
imaginary part `i`, the field names used by nmatrix's complex types. -/
structure Cplx where
  r : Int
  i : Int
deriving DecidableEq

/-- Modelled from the spec: `storage_count_max_elements(rank, shape)` (declared
in the storage common header, which is not part of this source file) is the
product of the first `rank` extents of `shape` — the logical element count. -/
def storage_count_max_elements (rank : Nat) (shape : List Nat) : Nat :=
  ((List.range rank).map fun k => shape.getD k 0).prod

/-- Model of `memcpy(dst + pos, src, len)` at element granularity: positions
`pos ≤ k < pos + len` of `dst` are replaced by `src[k - pos]`; the length of
`dst` is unchanged.  `dflt` stands for the content of any out-of-range read. -/
def memcpySeg (dflt : α) (dst src : List α) (pos len : Nat) : List α :=
  (List.range dst.length).map fun k =>
    if pos ≤ k ∧ k < pos + len then src.getD (k - pos) dflt else dst.getD k dflt

/-- The element-tiling loop of `dense_storage_create`: starting at `i = 0` and
stepping by `elements_length`, copy `copy_length` elements of the payload
(from payload offset `i % elements_length`, which is always `0` because `i`
stays a multiple of `elements_length`) into the buffer at position `i`,
shortening `copy_length` to `count - i` on the final partial tile.  `fuel`
bounds the number of iterations; with `0 < elements_length` the loop runs at
most `count` times, so the caller passes `fuel = count`. -/
def dense_storage_create_loop (junk : α) (payload : List α)
    (elements_length count : Nat) : List α → Nat → Nat → Nat → List α
  | buf, _, _, 0 => buf
  | buf, i, copy_length, fuel + 1 =>
    if i < count then
      let cl := if count < i + elements_length then count - i else copy_length
      dense_storage_create_loop junk payload elements_length count
        (memcpySeg junk buf (payload.drop (i % elements_length)) i cl)
        (i + elements_length) cl fuel
    else buf

/-- The `elements` buffer produced by `dense_storage_create`: a payload of
exactly `count` elements is adopted directly; otherwise a fresh buffer of
`count` elements is allocated (uninitialized, standing content `junk`) and,
when the payload is nonempty, the payload is tiled into it by the repetition
loop; with no payload the buffer is left uninitialized. -/
def dense_storage_create_elements (junk : α) (payload : List α)
    (elements_length count : Nat) : List α :=
  if elements_length = count then payload
  else
    let buf := List.replicate count junk
    if 0 < elements_length then
      dense_storage_create_loop junk payload elements_length count buf 0
        elements_length count
    else buf

/-- `DENSE_STORAGE` at the level of one typed element buffer, the view taken
by the dtype-templated routines: `elements` is the raw buffer reinterpreted at
the instantiating element type. -/
structure DStorage (α : Type) where
  rank : Nat
  shape : List Nat
  dtype : Dtype
  offset : List Nat
  elements : List α
deriving DecidableEq

/-- The storage record built by `dense_storage_create`, seen at the element
type of a template instantiation (the copy/cast routines call
`dense_storage_create` with a `NULL` payload and `elements_length = 0`). -/
def dense_storage_create_typed (dtype : Dtype) (shape : List Nat) (rank : Nat)
    (payload : List α) (elements_length : Nat) (junk : α) : DStorage α :=
  { rank := rank, shape := shape, dtype := dtype,
    offset := List.replicate rank 0,
    elements := dense_storage_create_elements junk payload elements_length
      (storage_count_max_elements rank shape) }

/-- The comparison loop of `dense_storage_eqeq_template`: `index` runs from
`count - 1` down to `0`; the first pair failing the dispatched inequality test
`ne` returns `false`.  `dl`, `dr` stand for out-of-range read content. -/
def dense_storage_eqeq_loop (ne : α → β → Bool) (dl : α) (dr : β)
    (left_els : List α) (right_els : List β) : Nat → Bool
  | 0 => true
  | index + 1 =>
    if ne (left_els.getD index dl) (right_els.getD index dr) then false
    else dense_storage_eqeq_loop ne dl dr left_els right_els index

/-- `dense_storage_eqeq_template<LDType, RDType>`: element-wise comparison
over the full logical element count of `left`, with `ne` the `!=` test of the
dispatched (left, right) dtype instantiation. -/
def dense_storage_eqeq_template (ne : α → β → Bool) (dl : α) (dr : β)
    (left : DStorage α) (right : DStorage β) : Bool :=
  dense_storage_eqeq_loop ne dl dr left.elements right.elements
    (storage_count_max_elements left.rank left.shape)

/-- Inner loop of `dense_storage_is_hermitian_template` over `j`; the second
argument is the number of remaining iterations (`shape[1] - j`).  Note the
conjugated value is read at flat index `j*lda + 1` — a fixed column offset of
`1` — exactly as in the source. -/
def dense_storage_is_hermitian_loop_j (els : List Cplx) (lda i : Nat) :
    Nat → Nat → Bool
  | _, 0 => true
  | j, rem + 1 =>
    let complex_conj := els.getD (j * lda + 1) ⟨0, 0⟩
    let complex_conj2 : Cplx := ⟨complex_conj.r, -complex_conj.i⟩
    if els.getD (i * lda + j) ⟨0, 0⟩ ≠ complex_conj2 then false
    else dense_storage_is_hermitian_loop_j els lda i (j + 1) rem

/-- Outer loop of `dense_storage_is_hermitian_template`: `i` runs from
`shape[0] - 1` down to `0`, the inner loop starting at `j = i + 1`. -/
def dense_storage_is_hermitian_loop_i (els : List Cplx) (lda shape1 : Nat) :
    Nat → Bool
  | 0 => true
  | i + 1 =>
    if dense_storage_is_hermitian_loop_j els lda i (i + 1) (shape1 - (i + 1)) then
      dense_storage_is_hermitian_loop_i els lda shape1 i
    else false

/-- `dense_storage_is_hermitian_template<DType>` for the complex dtypes. -/
def dense_storage_is_hermitian_template (mat : DStorage Cplx) (lda : Nat) : Bool :=
  dense_storage_is_hermitian_loop_i mat.elements lda (mat.shape.getD 1 0)
    (mat.shape.getD 0 0)

/-- Inner loop of `dense_storage_is_symmetric_template` over `j` (remaining
iteration count as second argument): compares `els[i*lda+j]` with
`els[j*lda+i]`. -/
def dense_storage_is_symmetric_loop_j [DecidableEq α] (dflt : α)
    (els : List α) (lda i : Nat) : Nat → Nat → Bool
  | _, 0 => true
  | j, rem + 1 =>
    if els.getD (i * lda + j) dflt ≠ els.getD (j * lda + i) dflt then false
    else dense_storage_is_symmetric_loop_j dflt els lda i (j + 1) rem

/-- Outer loop of `dense_storage_is_symmetric_template`. -/
def dense_storage_is_symmetric_loop_i [DecidableEq α] (dflt : α)
    (els : List α) (lda shape1 : Nat) : Nat → Bool
  | 0 => true
  | i + 1 =>
    if dense_storage_is_symmetric_loop_j dflt els lda i (i + 1) (shape1 - (i + 1)) then
      dense_storage_is_symmetric_loop_i dflt els lda shape1 i
    else false

/-- `dense_storage_is_symmetric_template<DType>`. -/
def dense_storage_is_symmetric_template [DecidableEq α] (dflt : α)
    (mat : DStorage α) (lda : Nat) : Bool :=
  dense_storage_is_symmetric_loop_i dflt mat.elements lda (mat.shape.getD 1 0)
    (mat.shape.getD 0 0)

/-- `dense_storage_is_symmetric` at a complex element buffer (the
instantiation reached from `dense_storage_is_hermitian` on complex data). -/
def dense_storage_is_symmetric (mat : DStorage Cplx) (lda : Nat) : Bool :=
  dense_storage_is_symmetric_template ⟨0, 0⟩ mat lda

/-- `dense_storage_is_hermitian`: dispatch on the dtype — `COMPLEX64` and
`COMPLEX128` go to the Hermitian template, anything else degenerates to the
symmetry test. -/
def dense_storage_is_hermitian (mat : DStorage Cplx) (lda : Nat) : Bool :=
  if mat.dtype = Dtype.COMPLEX64 then
    dense_storage_is_hermitian_template mat lda
  else if mat.dtype = Dtype.COMPLEX128 then
    dense_storage_is_hermitian_template mat lda
  else
    dense_storage_is_symmetric mat lda

/-- The Hermitian property as the spec states it: for all pairs `i, j` with
`j > i`, the element at `i*ld + j` equals the conjugate (imaginary part
negated) of the element at the transposed position `j*ld + i`. -/
def specIsHermitian (els : List Cplx) (ld shape0 shape1 : Nat) : Prop :=
  ∀ i, i < shape0 → ∀ j, j < shape1 → i < j →
    els.getD (i * ld + j) ⟨0, 0⟩ =
      ⟨(els.getD (j * ld + i) ⟨0, 0⟩).r, -(els.getD (j * ld + i) ⟨0, 0⟩).i⟩

instance (els : List Cplx) (ld shape0 shape1 : Nat) :
    Decidable (specIsHermitian els ld shape0 shape1) := by
  unfold specIsHermitian; infer_instance

/-- Inner loop of `dense_storage_pos` for dimension `k`: multiply the local
index by the extents of `s->src`'s shape for the dimensions after `k` (the
last argument is the remaining iteration count, starting at `l = k + 1`). -/
def dense_storage_pos_inner (srcShape : List Nat) : Nat → Nat → Nat → Nat
  | inner, _, 0 => inner
  | inner, l, rem + 1 =>
    dense_storage_pos_inner srcShape (inner * srcShape.getD l 0) (l + 1) rem

/-- Outer loop of `dense_storage_pos`: `k` runs from `rank - 1` down to `0`
(the last argument counts the dimensions still to process); each contribution
is `coords[k] + offset[k]` times the strides computed by the inner loop, all
accumulated by addition. -/
def dense_storage_pos_loop (coords offset srcShape : List Nat) (rank : Nat) :
    Nat → Nat
  | 0 => 0
  | k + 1 =>
    dense_storage_pos_inner srcShape (coords.getD k 0 + offset.getD k 0)
        (k + 1) (rank - (k + 1)) +
      dense_storage_pos_loop coords offset srcShape rank k

/-- `dense_storage_pos`: row-major strided flat position of a slice's
coordinates against a storage's own offset and the shape of its `src`.  No
bounds are checked. -/
def dense_storage_pos (coords offset srcShape : List Nat) (rank : Nat) : Nat :=
  dense_storage_pos_loop coords offset srcShape rank rank

/-- The element-wise conversion loop of `dense_storage_cast_copy_template`:
`while (count-- > 0) lhs_els[count] = rhs_els[count];` with the dispatched
conversion `conv` applied by the cross-type assignment. -/
def dense_storage_cast_copy_loop (conv : α → α) (junk : α) (rhs_els : List α) :
    List α → Nat → List α
  | lhs_els, 0 => lhs_els
  | lhs_els, cnt + 1 =>
    dense_storage_cast_copy_loop conv junk rhs_els
      (lhs_els.set cnt (conv (rhs_els.getD cnt junk))) cnt

/-- `dense_storage_cast_copy_template<DType, NewDType>`: allocate a root with
`new_dtype` and a copy of `rhs`'s shape (`shapeAllocOk = false` models the
checked failure of the shape allocation, propagated as `NULL`); with a nonzero
element count, an equal dtype pair takes the raw-buffer `memcpy` fast path,
otherwise every element is converted by the dispatched assignment `conv`.
The element type is the common carrier of the two instantiating dtypes. -/
def dense_storage_cast_copy_template (conv : α → α) (junk : α)
    (rhs : DStorage α) (new_dtype : Dtype) (shapeAllocOk : Bool) :
    Option (DStorage α) :=
  let count := storage_count_max_elements rhs.rank rhs.shape
  let shape := (List.range rhs.rank).map fun p => rhs.shape.getD p 0
  if shapeAllocOk = false then none
  else
    let lhs := dense_storage_create_typed new_dtype shape rhs.rank [] 0 junk
    if count ≠ 0 then
      if lhs.dtype = rhs.dtype then
        some { lhs with elements := memcpySeg junk lhs.elements rhs.elements 0 count }
      else
        some { lhs with
          elements := dense_storage_cast_copy_loop conv junk rhs.elements
            lhs.elements count }
    else some lhs

abbrev StorId := Nat

abbrev BufId := Nat

/-- `DENSE_STORAGE` as a heap record: `elements` and `src` are references — a
buffer id and a storage id — rather than inline data, so that buffer sharing
between a root and its views is explicit. -/
structure HStorage where
  rank : Nat
  shape : List Nat
  dtype : Dtype
  offset : List Nat
  elements : BufId
  count : Nat
  src : StorId
deriving DecidableEq

/-- The `SLICE` request consumed by the accessors: per-dimension start
coordinates, per-dimension lengths, and the single-element flag. -/
structure SLICE where
  coords : List Nat
  lens : List Nat
  is_one_el : Bool
deriving DecidableEq

/-- The storage/buffer heap: storages and element buffers (of `Int`-valued
elements) addressed by ids; `nextStor` and `nextBuf` are the next fresh ids
handed out by allocation. -/
structure Heap where
  stors : StorId → Option HStorage
  bufs : BufId → Option (List Int)
  nextStor : StorId
  nextBuf : BufId

/-- Point update of a heap map. -/
def upd (f : Nat → Option γ) (k : Nat) (v : Option γ) : Nat → Option γ :=
  fun n => if n = k then v else f n

/-- `dense_storage_create`: allocate a fresh root — the tiled (or adopted)
element buffer, the given shape, a zero-filled (`calloc`) offset, `count = 1`
and `src` pointing to itself. -/
def dense_storage_create (σ : Heap) (dtype : Dtype) (shape : List Nat)
    (rank : Nat) (payload : List Int) (elements_length : Nat) (junk : Int) :
    Heap × StorId :=
  let count := storage_count_max_elements rank shape
  let els := dense_storage_create_elements junk payload elements_length count
  let sid := σ.nextStor
  let bid := σ.nextBuf
  let s : HStorage :=
    { rank := rank, shape := shape, dtype := dtype,
      offset := List.replicate rank 0, elements := bid, count := 1, src := sid }
  ({ stors := upd σ.stors sid (some s), bufs := upd σ.bufs bid (some els),
     nextStor := sid + 1, nextBuf := bid + 1 }, sid)

/-- `dense_storage_pos` applied to a heap storage: the offset is the
storage's own, the strides come from the shape of `s->src`. -/
def dense_storage_pos_h (σ : Heap) (sid : StorId) (slice : SLICE) :
    Option Nat :=
  match σ.stors sid with
  | none => none
  | some s =>
    match σ.stors s.src with
    | none => none
    | some r => some (dense_storage_pos slice.coords s.offset r.shape s.rank)

/-- Result of `dense_storage_get`: a single-element request returns a raw
reference into a buffer at a flat position; otherwise a fresh view storage. -/
inductive GetResult where
  | ref (buf : BufId) (pos : Nat)
  | view (sid : StorId)
deriving DecidableEq

/-- `dense_storage_get`: a single-element slice yields a reference into the
buffer at the computed position; otherwise a fresh view record is allocated —
its shape and offset adopted from the slice, the buffer reference and dtype
shared from `s`, `src` set to the argument storage `s` itself, whose `count`
is incremented.  (The view's own `count` field is left uninitialized by the
source; it is arbitrarily `0` here and is never read.) -/
def dense_storage_get (σ : Heap) (sid : StorId) (slice : SLICE) :
    Option (Heap × GetResult) :=
  match σ.stors sid with
  | none => none
  | some s =>
    if slice.is_one_el then
      match dense_storage_pos_h σ sid slice with
      | none => none
      | some p => some (σ, GetResult.ref s.elements p)
    else
      let ns : HStorage :=
        { rank := s.rank, shape := slice.lens, dtype := s.dtype,
          offset := slice.coords, elements := s.elements, count := 0,
          src := sid }
      some ({ σ with
          stors := upd (upd σ.stors sid (some { s with count := s.count + 1 }))
            σ.nextStor (some ns),
          nextStor := σ.nextStor + 1 },
        GetResult.view σ.nextStor)

/-- `dense_storage_delete_ref`: a no-op on an absent storage; otherwise
decrement `src->count`, then release the view's own shape, offset and record.
The shared element buffer is never touched. -/
def dense_storage_delete_ref (σ : Heap) (sid : StorId) : Heap :=
  match σ.stors sid with
  | none => σ
  | some v =>
    let stors1 :=
      match σ.stors v.src with
      | none => σ.stors
      | some sSrc => upd σ.stors v.src (some { sSrc with count := sSrc.count - 1 })
    { σ with stors := upd stors1 sid none }

/-- `dense_storage_delete`: a no-op on an absent storage; when `count ≤ 1`,
release shape, offset, the element buffer and the record itself. -/
def dense_storage_delete (σ : Heap) (sid : StorId) : Heap :=
  match σ.stors sid with
  | none => σ
  | some s =>
    if s.count ≤ 1 then
      { σ with stors := upd σ.stors sid none,
               bufs := upd σ.bufs s.elements none }
    else σ

/-- `dense_storage_set`: copy one element value into the buffer at the
computed position (a single-element target; the value is not adopted). -/
def dense_storage_set (σ : Heap) (sid : StorId) (slice : SLICE) (val : Int) :
    Heap :=
  match σ.stors sid with
  | none => σ
  | some s =>
    match dense_storage_pos_h σ sid slice with
    | none => σ
    | some p =>
      match σ.bufs s.elements with
      | none => σ
      | some buf => { σ with bufs := upd σ.bufs s.elements (some (buf.set p val)) }

/-- `dense_storage_copy`: copy the shape, build a fresh root through
`dense_storage_create` with a `NULL` payload, then — when the element count is
nonzero — `memcpy` the full raw buffer of `rhs` (read from its start) into the
new root's buffer.  `shapeAllocOk = false` models the checked failure of the
shape allocation: `NULL` is returned and nothing is built. -/
def dense_storage_copy (σ : Heap) (sid : StorId) (junk : Int)
    (shapeAllocOk : Bool) : Heap × Option StorId :=
  match σ.stors sid with
  | none => (σ, none)
  | some rhs =>
    if shapeAllocOk = false then (σ, none)
    else
      let count := storage_count_max_elements rhs.rank rhs.shape
      let shape := (List.range rhs.rank).map fun p => rhs.shape.getD p 0
      let rhsBuf := (σ.bufs rhs.elements).getD []
      let els0 := dense_storage_create_elements junk ([] : List Int) 0 count
      let els := if count ≠ 0 then memcpySeg junk els0 rhsBuf 0 count else els0
      let cid := σ.nextStor
      let bid := σ.nextBuf
      let c : HStorage :=
        { rank := rhs.rank, shape := shape, dtype := rhs.dtype,
          offset := List.replicate rhs.rank 0, elements := bid, count := 1,
          src := cid }
      ({ stors := upd σ.stors cid (some c),
         bufs := upd σ.bufs bid (some els),
         nextStor := cid + 1, nextBuf := bid + 1 }, some cid)

/-- `dense_storage_eqeq`: dispatch the element-wise comparison on the
`(left.dtype, right.dtype)` pair — `ttable` is the dispatch table of `!=`
tests — over the full logical element count of `left`. -/
def dense_storage_eqeq (ttable : Dtype → Dtype → Int → Int → Bool)
    (σ : Heap) (lid rid : StorId) : Option Bool :=
  match σ.stors lid, σ.stors rid with
  | some l, some r =>
    match σ.bufs l.elements, σ.bufs r.elements with
    | some lb, some rb =>
      some (dense_storage_eqeq_loop (ttable l.dtype r.dtype) 0 0 lb rb
        (storage_count_max_elements l.rank l.shape))
    | _, _ => none
  | _, _ => none

/-- `dense_storage_cast_copy` over the heap: the dispatcher selects the
template instantiation for the `(new_dtype, rhs.dtype)` pair — `conv` stands
for that dispatched element conversion — and the template copies `rhs`'s
shape, builds a fresh root through `dense_storage_create` with a `NULL`
payload, then fills it from the start of the buffer `rhs->elements` refers to:
a raw `memcpy` when the dtypes are equal, the element-wise conversion loop
otherwise.  `shapeAllocOk = false` models the checked failure of the shape
allocation (`NULL` returned, nothing built). -/
def dense_storage_cast_copy (conv : Int → Int) (σ : Heap) (sid : StorId)
    (new_dtype : Dtype) (junk : Int) (shapeAllocOk : Bool) :
    Heap × Option StorId :=
  match σ.stors sid with
  | none => (σ, none)
  | some rhs =>
    if shapeAllocOk = false then (σ, none)
    else
      let count := storage_count_max_elements rhs.rank rhs.shape
      let shape := (List.range rhs.rank).map fun p => rhs.shape.getD p 0
      let rhsBuf := (σ.bufs rhs.elements).getD []
      let els0 := dense_storage_create_elements junk ([] : List Int) 0 count
      let els :=
        if count ≠ 0 then
          if new_dtype = rhs.dtype then memcpySeg junk els0 rhsBuf 0 count
          else dense_storage_cast_copy_loop conv junk rhsBuf els0 count
        else els0
      let cid := σ.nextStor
      let bid := σ.nextBuf
      let c : HStorage :=
        { rank := rhs.rank, shape := shape, dtype := new_dtype,
          offset := List.replicate rhs.rank 0, elements := bid, count := 1,
          src := cid }
      ({ stors := upd σ.stors cid (some c),
         bufs := upd σ.bufs bid (some els),
         nextStor := cid + 1, nextBuf := bid + 1 }, some cid)

/-! Helper lemmas about the loop models. -/

lemma memcpySeg_length (dflt : α) (dst src : List α) (pos len : Nat) :
    (memcpySeg dflt dst src pos len).length = dst.length := by
  simp [memcpySeg]

lemma memcpySeg_getElem (dflt : α) (dst src : List α) (pos len k : Nat)
    (hk : k < (memcpySeg dflt dst src pos len).length) :
    (memcpySeg dflt dst src pos len)[k] =
      if pos ≤ k ∧ k < pos + len then src.getD (k - pos) dflt
      else dst.getD k dflt := by
  simp [memcpySeg]

lemma memcpySeg_getD (dflt : α) (dst src : List α) (pos len k : Nat)
    (hk : k < dst.length) :
    (memcpySeg dflt dst src pos len).getD k dflt =
      if pos ≤ k ∧ k < pos + len then src.getD (k - pos) dflt
      else dst.getD k dflt := by
  rw [List.getD_eq_getElem _ _ (by rwa [memcpySeg_length])]
  rw [memcpySeg_getElem]

lemma create_loop_length (junk : α) (payload : List α) (eLen count : Nat) :
    ∀ fuel i cl buf,
      (dense_storage_create_loop junk payload eLen count buf i cl fuel).length
        = buf.length := by
  intro fuel
  induction fuel with
  | zero => intro i cl buf; rfl
  | succ n ih =>
    intro i cl buf
    by_cases h : i < count
    · rw [show dense_storage_create_loop junk payload eLen count buf i cl (n + 1)
          = dense_storage_create_loop junk payload eLen count
              (memcpySeg junk buf (payload.drop (i % eLen)) i
                (if count < i + eLen then count - i else cl))
              (i + eLen) (if count < i + eLen then count - i else cl) n by
        simp [dense_storage_create_loop, h]]
      rw [ih, memcpySeg_length]
    · simp [dense_storage_create_loop, h]

lemma create_loop_done (junk : α) (payload : List α) (eLen count : Nat) :
    ∀ fuel i cl buf, count ≤ i →
      dense_storage_create_loop junk payload eLen count buf i cl fuel = buf := by
  intro fuel
  cases fuel with
  | zero => intro i cl buf _; rfl
  | succ n => intro i cl buf h; simp [dense_storage_create_loop, Nat.not_lt.mpr h]

lemma mod_eq_sub_of_aligned (i k eLen : Nat) (hmod : i % eLen = 0)
    (hik : i ≤ k) (hlt : k - i < eLen) : k % eLen = k - i := by
  obtain ⟨m, hm⟩ := Nat.dvd_of_mod_eq_zero hmod
  calc k % eLen = (eLen * m + (k - i)) % eLen := by rw [show eLen * m + (k - i) = k by omega]
    _ = (k - i) % eLen := Nat.mul_add_mod _ _ _
    _ = k - i := Nat.mod_eq_of_lt hlt

lemma create_loop_spec (junk : α) (payload : List α) (eLen count : Nat)
    (heLen : 0 < eLen) :
    ∀ fuel i buf, buf.length = count → i % eLen = 0 →
      count - i ≤ fuel * eLen →
      (∀ k, k < i → k < count → buf.getD k junk = payload.getD (k % eLen) junk) →
      ∀ k, k < count →
        (dense_storage_create_loop junk payload eLen count buf i eLen fuel).getD k junk
          = payload.getD (k % eLen) junk := by
  intro fuel
  induction fuel with
  | zero =>
    intro i buf hlen hmod hfuel hinv k hk
    exact hinv k (by omega) hk
  | succ n ih =>
    intro i buf hlen hmod hfuel hinv k hk
    by_cases hi : i < count
    · rw [show dense_storage_create_loop junk payload eLen count buf i eLen (n + 1)
          = dense_storage_create_loop junk payload eLen count
              (memcpySeg junk buf (payload.drop (i % eLen)) i
                (if count < i + eLen then count - i else eLen))
              (i + eLen) (if count < i + eLen then count - i else eLen) n by
        simp [dense_storage_create_loop, hi]]
      rw [hmod, List.drop_zero]
      by_cases hlast : count < i + eLen
      · rw [if_pos hlast]
        rw [create_loop_done junk payload eLen count n (i + eLen) _ _ (by omega)]
        rw [memcpySeg_getD junk buf payload i (count - i) k (by omega)]
        by_cases hseg : i ≤ k
        · rw [if_pos ⟨hseg, by omega⟩]
          rw [mod_eq_sub_of_aligned i k eLen hmod hseg (by omega)]
        · rw [if_neg (by omega)]
          exact hinv k (by omega) hk
      · rw [if_neg hlast]
        refine ih (i + eLen) _ (by rw [memcpySeg_length]; exact hlen)
          (by rw [Nat.add_mod, hmod, Nat.mod_self]; rfl)
          (by
            have h1 : (n + 1) * eLen = n * eLen + eLen := by ring
            have h2 : Nat.succ n * eLen = n * eLen + eLen := Nat.succ_mul n eLen
            omega) ?_ k hk
        intro k2 hk2 hk2c
        rw [memcpySeg_getD junk buf payload i eLen k2 (by omega)]
        by_cases hseg : i ≤ k2
        · rw [if_pos ⟨hseg, by omega⟩]
          rw [mod_eq_sub_of_aligned i k2 eLen hmod hseg (by omega)]
        · rw [if_neg (by omega)]
          exact hinv k2 (by omega) hk2c
    · rw [create_loop_done junk payload eLen count (n + 1) i eLen buf (by omega)]
      exact hinv k (by omega) hk

lemma create_elements_tiles (junk : α) (payload : List α) (count : Nat)
    (hpos : 0 < payload.length) (hne : payload.length ≠ count) :
    dense_storage_create_elements junk payload payload.length count =
      (List.range count).map fun idx => payload.getD (idx % payload.length) junk := by
  unfold dense_storage_create_elements
  rw [if_neg hne]
  simp only [hpos, if_pos]
  apply List.ext_getElem
  · rw [create_loop_length]; simp
  · intro n h1 h2
    have hn : n < count := by simpa using h2
    have hmain := create_loop_spec junk payload payload.length count hpos count 0
      (List.replicate count junk) (by simp) (by simp)
      (by
        have : count ≤ count * payload.length := Nat.le_mul_of_pos_right count hpos
        omega)
      (by intro k hk _; omega) n hn
    rw [← List.getD_eq_getElem _ junk h1, hmain]
    simp [List.getD_eq_getElem]

lemma eqeq_loop_iff (ne : α → β → Bool) (dl : α) (dr : β)
    (l : List α) (r : List β) :
    ∀ n, (dense_storage_eqeq_loop ne dl dr l r n = true ↔
      ∀ idx, idx < n → ne (l.getD idx dl) (r.getD idx dr) = false) := by
  intro n
  induction n with
  | zero => simp [dense_storage_eqeq_loop]
  | succ m ih =>
    simp only [dense_storage_eqeq_loop]
    by_cases h : ne (l.getD m dl) (r.getD m dr) = true
    · simp only [h, if_true]
      constructor
      · intro hx; exact absurd hx (by simp)
      · intro hall
        have hm := hall m (Nat.lt_succ_self m)
        rw [hm] at h
        exact absurd h (by simp)
    · simp only [h, if_false, Bool.false_eq_true]
      rw [ih]
      constructor
      · intro hall idx hidx
        rcases Nat.lt_succ_iff_lt_or_eq.mp hidx with h1 | h1
        · exact hall idx h1
        · subst h1; exact Bool.not_eq_true _ |>.mp h
      · intro hall idx hidx; exact hall idx (by omega)

lemma cast_copy_loop_length (conv : α → α) (junk : α) (rhs_els : List α) :
    ∀ n lhs_els,
      (dense_storage_cast_copy_loop conv junk rhs_els lhs_els n).length
        = lhs_els.length := by
  intro n
  induction n with
  | zero => intro l; rfl
  | succ m ih =>
    intro l
    rw [show dense_storage_cast_copy_loop conv junk rhs_els l (m + 1)
        = dense_storage_cast_copy_loop conv junk rhs_els
            (l.set m (conv (rhs_els.getD m junk))) m from rfl]
    rw [ih]; simp

lemma cast_copy_loop_getD (conv : α → α) (junk : α) (rhs_els : List α) :
    ∀ n lhs_els k, k < lhs_els.length →
      (dense_storage_cast_copy_loop conv junk rhs_els lhs_els n).getD k junk =
        if k < n then conv (rhs_els.getD k junk) else lhs_els.getD k junk := by
  intro n
  induction n with
  | zero => intro l k hk; simp [dense_storage_cast_copy_loop]
  | succ m ih =>
    intro l k hk
    rw [show dense_storage_cast_copy_loop conv junk rhs_els l (m + 1)
        = dense_storage_cast_copy_loop conv junk rhs_els
            (l.set m (conv (rhs_els.getD m junk))) m from rfl]
    rw [ih _ k (by simpa using hk)]
    by_cases h1 : k < m
    · rw [if_pos h1, if_pos (by omega)]
    · by_cases h2 : k = m
      · subst h2
        rw [if_neg h1, if_pos (by omega)]
        rw [List.getD_eq_getElem _ _ (by simpa using hk)]
        simp
      · rw [if_neg h1, if_neg (by omega)]
        rw [List.getD_eq_getElem _ _ (by simpa using hk),
          List.getD_eq_getElem _ _ hk]
        exact List.getElem_set_ne (show m ≠ k by omega) (by simpa using hk)

lemma cast_copy_loop_replicate (conv : α → α) (junk : α) (src : List α)
    (count : Nat) :
    dense_storage_cast_copy_loop conv junk src (List.replicate count junk) count
      = (List.range count).map fun k => conv (src.getD k junk) := by
  apply List.ext_getElem
  · rw [cast_copy_loop_length]
    simp
  · intro n h1 h2
    have hn : n < count := by
      rw [cast_copy_loop_length, List.length_replicate] at h1
      exact h1
    rw [← List.getD_eq_getElem _ junk h1,
      cast_copy_loop_getD conv junk src count (List.replicate count junk) n
        (by simpa using hn),
      if_pos hn]
    simp only [List.getElem_map, List.getElem_range]

lemma memcpySeg_replicate_take (junk : α) (src : List α) (count : Nat)
    (h : count ≤ src.length) :
    memcpySeg junk (List.replicate count junk) src 0 count = src.take count := by
  apply List.ext_getElem
  · rw [memcpySeg_length]; simp; omega
  · intro n h1 h2
    have hn : n < count := by
      rw [memcpySeg_length, List.length_replicate] at h1; exact h1
    rw [memcpySeg_getElem]
    rw [if_pos ⟨by omega, by omega⟩]
    rw [List.getD_eq_getElem _ _ (by omega)]
    simp

lemma range_map_getD_self (l : List Nat) (d : Nat) :
    (List.range l.length).map (fun k => l.getD k d) = l := by
  apply List.ext_getElem
  · simp
  · intro n h1 h2
    simp only [List.getElem_map, List.getElem_range]
    exact List.getD_eq_getElem l d h2

lemma pos_inner_eq (srcShape : List Nat) :
    ∀ rem inner l, dense_storage_pos_inner srcShape inner l rem =
      inner * ∏ x ∈ Finset.Ico l (l + rem), srcShape.getD x 0 := by
  intro rem
  induction rem with
  | zero => intro inner l; simp [dense_storage_pos_inner]
  | succ m ih =>
    intro inner l
    rw [show dense_storage_pos_inner srcShape inner l (m + 1)
        = dense_storage_pos_inner srcShape (inner * srcShape.getD l 0) (l + 1) m
        from rfl]
    rw [ih]
    rw [show l + (m + 1) = (l + 1) + m by omega] at *
    rw [Finset.prod_eq_prod_Ico_succ_bot (by omega : l < (l + 1) + m)]
    ring

lemma pos_loop_eq (coords offset srcShape : List Nat) (rank : Nat) :
    ∀ n, dense_storage_pos_loop coords offset srcShape rank n =
      ∑ k ∈ Finset.range n, (coords.getD k 0 + offset.getD k 0) *
        ∏ l ∈ Finset.Ico (k + 1) rank, srcShape.getD l 0 := by
  intro n
  induction n with
  | zero => simp [dense_storage_pos_loop]
  | succ m ih =>
    rw [show dense_storage_pos_loop coords offset srcShape rank (m + 1)
        = dense_storage_pos_inner srcShape (coords.getD m 0 + offset.getD m 0)
            (m + 1) (rank - (m + 1)) +
          dense_storage_pos_loop coords offset srcShape rank m from rfl]
    rw [ih, pos_inner_eq, Finset.sum_range_succ]
    have hprod : ∏ x ∈ Finset.Ico (m + 1) ((m + 1) + (rank - (m + 1))),
        srcShape.getD x 0 = ∏ x ∈ Finset.Ico (m + 1) rank, srcShape.getD x 0 := by
      rcases le_or_lt (m + 1) rank with h | h
      · rw [show (m + 1) + (rank - (m + 1)) = rank by omega]
      · rw [show (m + 1) + (rank - (m + 1)) = m + 1 by omega]
        rw [Finset.Ico_self, Finset.Ico_eq_empty (by omega)]
    rw [hprod]
    exact Nat.add_comm _ _

lemma pos_eq (coords offset srcShape : List Nat) (rank : Nat) :
    dense_storage_pos coords offset srcShape rank =
      ∑ k ∈ Finset.range rank, (coords.getD k 0 + offset.getD k 0) *
        ∏ l ∈ Finset.Ico (k + 1) rank, srcShape.getD l 0 :=
  pos_loop_eq coords offset srcShape rank rank

lemma upd_same (f : Nat → Option γ) (k : Nat) (v : Option γ) : upd f k v k = v := by
  simp [upd]

lemma upd_ne (f : Nat → Option γ) (k : Nat) (v : Option γ) (n : Nat) (h : n ≠ k) :
    upd f k v n = f n := by
  simp [upd, h]

lemma delete_ref_bufs (σ : Heap) (sid : StorId) :
    (dense_storage_delete_ref σ sid).bufs = σ.bufs := by
  unfold dense_storage_delete_ref
  cases h : σ.stors sid
  · rfl
  · rfl

lemma eqeq_eq_some (ttable : Dtype → Dtype → Int → Int → Bool) (σ : Heap)
    (lid rid : StorId) (l r : HStorage) (lb rb : List Int)
    (hl : σ.stors lid = some l) (hr : σ.stors rid = some r)
    (hlb : σ.bufs l.elements = some lb) (hrb : σ.bufs r.elements = some rb) :
    dense_storage_eqeq ttable σ lid rid =
      some (dense_storage_eqeq_loop (ttable l.dtype r.dtype) 0 0 lb rb
        (storage_count_max_elements l.rank l.shape)) := by
  simp only [dense_storage_eqeq, hl, hr, hlb, hrb]

lemma create_elements_nil (junk : α) (count : Nat) (h : count ≠ 0) :
    dense_storage_create_elements junk ([] : List α) 0 count =
      List.replicate count junk := by
  unfold dense_storage_create_elements
  rw [if_neg (by omega)]
  simp

lemma maxel_shape_copy (rank : Nat) (l : List Nat) :
    storage_count_max_elements rank ((List.range rank).map fun p => l.getD p 0)
      = storage_count_max_elements rank l := by
  unfold storage_count_max_elements
  congr 1
  apply List.ext_getElem
  · simp
  · intro n h1 h2
    simp only [List.getElem_map, List.getElem_range]
    rw [List.getD_eq_getElem _ _ (by simpa using h2)]
    simp only [List.getElem_map, List.getElem_range]

lemma shape_copy_self (l : List Nat) (rank : Nat) (h : l.length = rank) :
    ((List.range rank).map fun p => l.getD p 0) = l := by
  subst h
  exact range_map_getD_self l 0

/-! Claim theorems. -/

/-- C1: the claim states that `isHermitian`, on a complex dtype, is true iff
every element at `i*ld + j` (for `j > i`) equals the conjugate of the element
at the transposed position `j*ld + i`.  The source instead reads the
conjugated value at flat index `j*lda + 1` (a fixed column offset of `1`,
against its own documented Hermitian contract), so on the genuinely Hermitian
2×2 COMPLEX64 storage `[[1, 2+3i], [2-3i, 5]]` with `lda = 2` it answers
`false`, and on the non-Hermitian storage `[[1, 4+7i], [0, 4-7i]]` it answers
`true`. -/
theorem is_hermitian_index_defect :
    dense_storage_is_hermitian
        ⟨2, [2, 2], Dtype.COMPLEX64, [0, 0],
          [⟨1, 0⟩, ⟨2, 3⟩, ⟨2, -3⟩, ⟨5, 0⟩]⟩ 2 = false ∧
    specIsHermitian [⟨1, 0⟩, ⟨2, 3⟩, ⟨2, -3⟩, ⟨5, 0⟩] 2 2 2 ∧
    dense_storage_is_hermitian
        ⟨2, [2, 2], Dtype.COMPLEX64, [0, 0],
          [⟨1, 0⟩, ⟨4, 7⟩, ⟨0, 0⟩, ⟨4, -7⟩]⟩ 2 = true ∧
    ¬ specIsHermitian [⟨1, 0⟩, ⟨4, 7⟩, ⟨0, 0⟩, ⟨4, -7⟩] 2 2 2 := by
  decide

/-- C4: when the initial payload is nonempty and its length differs from the
required element count, `dense_storage_create` fills the fresh root buffer by
tiling the payload from its start, truncating the final tile, so the logical
content at index `idx` is `payload[idx % payload.length]`. -/
theorem create_tiles_payload (σ : Heap) (dtype : Dtype) (shape : List Nat)
    (rank : Nat) (payload : List Int) (junk : Int)
    (hpos : 0 < payload.length)
    (hne : payload.length ≠ storage_count_max_elements rank shape) :
    ((dense_storage_create σ dtype shape rank payload payload.length junk).1.stors
        σ.nextStor).map HStorage.elements = some σ.nextBuf ∧
    (dense_storage_create σ dtype shape rank payload payload.length junk).1.bufs
        σ.nextBuf =
      some ((List.range (storage_count_max_elements rank shape)).map
        fun idx => payload.getD (idx % payload.length) junk) := by
  unfold dense_storage_create
  refine ⟨by simp [upd_same], ?_⟩
  simp only [upd_same]
  rw [create_elements_tiles junk payload _ hpos hne]

/-- C4 witness: `create` with payload `[1,2]` over target length 4 yields
logical contents `[1,2,1,2]`, and with payload `[1,2,3]` yields `[1,2,3,1]`. -/
theorem create_tiles_payload_witness :
    (0 < ([1, 2] : List Int).length ∧
      ([1, 2] : List Int).length ≠ storage_count_max_elements 1 [4]) ∧
    (dense_storage_create ⟨fun _ => none, fun _ => none, 0, 0⟩ Dtype.INT64 [4] 1
        [1, 2] 2 0).1.bufs 0 = some [1, 2, 1, 2] ∧
    (dense_storage_create ⟨fun _ => none, fun _ => none, 0, 0⟩ Dtype.INT64 [4] 1
        [1, 2, 3] 3 0).1.bufs 0 = some [1, 2, 3, 1] := by
  refine ⟨⟨by decide, by decide⟩, ?_, ?_⟩
  · exact ((create_tiles_payload ⟨fun _ => none, fun _ => none, 0, 0⟩ Dtype.INT64
      [4] 1 [1, 2] 0 (by decide) (by decide)).2).trans (by decide)
  · exact ((create_tiles_payload ⟨fun _ => none, fun _ => none, 0, 0⟩ Dtype.INT64
      [4] 1 [1, 2, 3] 0 (by decide) (by decide)).2).trans (by decide)

/-- C5: `dense_storage_eqeq_template` compares exactly the first
`product(left.shape)` element positions under the dispatched comparison: the
result is `true` iff every compared pair matches (so any differing pair makes
it `false`), a zero logical element count of `left` gives `true` for every
dispatched comparison, and at the `dense_storage_eqeq` dispatcher a zero count
gives `true` for every dispatch table, i.e. regardless of the dtype pair. -/
theorem eqeq_compares_left_count (ne : α → β → Bool) (dl : α) (dr : β)
    (left : DStorage α) (right : DStorage β) :
    (dense_storage_eqeq_template ne dl dr left right = true ↔
      ∀ idx, idx < storage_count_max_elements left.rank left.shape →
        ne (left.elements.getD idx dl) (right.elements.getD idx dr) = false) ∧
    (storage_count_max_elements left.rank left.shape = 0 →
      dense_storage_eqeq_template ne dl dr left right = true) ∧
    (∀ (ttable : Dtype → Dtype → Int → Int → Bool) (σ : Heap)
        (lid rid : StorId) (l r : HStorage) (lb rb : List Int),
      σ.stors lid = some l → σ.stors rid = some r →
      σ.bufs l.elements = some lb → σ.bufs r.elements = some rb →
      storage_count_max_elements l.rank l.shape = 0 →
      dense_storage_eqeq ttable σ lid rid = some true) := by
  refine ⟨eqeq_loop_iff ne dl dr left.elements right.elements _, ?_, ?_⟩
  · intro h
    unfold dense_storage_eqeq_template
    rw [h]
    rfl
  · intro ttable σ lid rid l r lb rb hl hr hlb hrb hcnt
    simp only [dense_storage_eqeq, hl, hr, hlb, hrb, hcnt]
    rfl

/-- Witness heap for the C5 dispatcher clause: two zero-extent storages of
different dtypes over empty buffers. -/
def eqeq_w_heap : Heap :=
  ⟨upd (upd (fun _ => none) 0 (some ⟨1, [0], Dtype.INT32, [0], 0, 1, 0⟩)) 1
      (some ⟨1, [0], Dtype.FLOAT64, [0], 1, 1, 1⟩),
   upd (upd (fun _ => none) 0 (some [])) 1 (some []), 2, 2⟩

/-- C5 witness: on two zero-element storages of different dtypes, equality is
`true`, at the template and at the dispatcher. -/
theorem eqeq_compares_left_count_witness :
    storage_count_max_elements 1 [0] = 0 ∧
    dense_storage_eqeq_template (fun x y : Int => x != y) 0 0
      ⟨1, [0], Dtype.INT32, [0], []⟩ ⟨1, [0], Dtype.FLOAT64, [0], []⟩ = true ∧
    dense_storage_eqeq (fun _ _ x y => x != y) eqeq_w_heap 0 1 = some true := by
  refine ⟨by decide, ?_, ?_⟩
  · exact (eqeq_compares_left_count (fun x y : Int => x != y) 0 0
      ⟨1, [0], Dtype.INT32, [0], []⟩ ⟨1, [0], Dtype.FLOAT64, [0], []⟩).2.1
      (by decide)
  · exact (eqeq_compares_left_count (fun x y : Int => x != y) 0 0
      ⟨1, [0], Dtype.INT32, [0], []⟩ ⟨1, [0], Dtype.FLOAT64, [0], []⟩).2.2
      (fun _ _ x y => x != y) eqeq_w_heap 0 1
      ⟨1, [0], Dtype.INT32, [0], 0, 1, 0⟩ ⟨1, [0], Dtype.FLOAT64, [0], 1, 1, 1⟩
      [] [] (by decide) (by decide) (by decide) (by decide) (by decide)

/-- C6: for every heap storage `s` and slice, the flat position computed by
`dense_storage_pos` is the row-major sum over dimensions `k` of
`(coords[k] + offset[k])` times the product of the shape extents of `s->src`
for all dimensions after `k`; the function is total (no bounds checking). -/
theorem pos_row_major (σ : Heap) (sid : StorId) (s r : HStorage) (slice : SLICE)
    (hs : σ.stors sid = some s) (hr : σ.stors s.src = some r) :
    dense_storage_pos_h σ sid slice =
      some (∑ k ∈ Finset.range s.rank,
        (slice.coords.getD k 0 + s.offset.getD k 0) *
          ∏ l ∈ Finset.Ico (k + 1) s.rank, r.shape.getD l 0) := by
  simp only [dense_storage_pos_h, hs, hr, pos_eq]

/-- Witness heap for C6: a 3×4 root (id 0, buffer 0) and a 2×2 view of it
(id 1) with offset `[1, 1]`. -/
def c6_heap : Heap :=
  ⟨upd (upd (fun _ => none) 0 (some ⟨2, [3, 4], Dtype.INT32, [0, 0], 0, 2, 0⟩)) 1
      (some ⟨2, [2, 2], Dtype.INT32, [1, 1], 0, 0, 0⟩),
   upd (fun _ => none) 0 (some (List.replicate 12 0)), 2, 1⟩

/-- C6 witness: on the 2×2 view with offset `[1,1]` of a 3×4 root, coordinate
`[1, 0]` maps to flat position `(1+1)*4 + (0+1) = 9`. -/
theorem pos_row_major_witness :
    c6_heap.stors 1 = some ⟨2, [2, 2], Dtype.INT32, [1, 1], 0, 0, 0⟩ ∧
    c6_heap.stors 0 = some ⟨2, [3, 4], Dtype.INT32, [0, 0], 0, 2, 0⟩ ∧
    dense_storage_pos_h c6_heap 1 ⟨[1, 0], [1, 1], true⟩ = some 9 := by
  refine ⟨by decide, by decide, ?_⟩
  exact (pos_row_major c6_heap 1 ⟨2, [2, 2], Dtype.INT32, [1, 1], 0, 0, 0⟩
    ⟨2, [3, 4], Dtype.INT32, [0, 0], 0, 2, 0⟩ ⟨[1, 0], [1, 1], true⟩
    (by decide) (by decide)).trans (by decide)

/-- C9: the same-dtype fast path of `dense_storage_cast_copy_template`
produces exactly the manual full-buffer copy of `rhs` — its first
`product(shape)` elements, the element-granularity reading of the
`DTYPE_SIZES[dtype] * count` byte `memcpy` — and this agrees with what the
element-wise conversion loop produces under the identity conversion. -/
theorem cast_copy_fast_path (conv : α → α) (junk : α) (rhs : DStorage α)
    (hc : storage_count_max_elements rhs.rank rhs.shape ≤ rhs.elements.length) :
    dense_storage_cast_copy_template conv junk rhs rhs.dtype true =
      some { rank := rhs.rank,
             shape := (List.range rhs.rank).map fun p => rhs.shape.getD p 0,
             dtype := rhs.dtype, offset := List.replicate rhs.rank 0,
             elements := rhs.elements.take
               (storage_count_max_elements rhs.rank rhs.shape) } ∧
    rhs.elements.take (storage_count_max_elements rhs.rank rhs.shape) =
      dense_storage_cast_copy_loop (fun x => x) junk rhs.elements
        (List.replicate (storage_count_max_elements rhs.rank rhs.shape) junk)
        (storage_count_max_elements rhs.rank rhs.shape) := by
  constructor
  · simp only [dense_storage_cast_copy_template, dense_storage_create_typed]
    rw [if_neg (by simp)]
    by_cases hcnt : storage_count_max_elements rhs.rank rhs.shape = 0
    · rw [if_neg (by omega)]
      rw [maxel_shape_copy, hcnt]
      simp [dense_storage_create_elements]
    · rw [if_pos hcnt]
      simp only [if_true]
      rw [maxel_shape_copy, create_elements_nil junk _ hcnt,
        memcpySeg_replicate_take junk rhs.elements _ hc]
  · apply List.ext_getElem
    · rw [cast_copy_loop_length]
      simp
      omega
    · intro n h1 h2
      have hn : n < storage_count_max_elements rhs.rank rhs.shape := by
        simp [List.length_take] at h1
        omega
      rw [← List.getD_eq_getElem _ junk h2,
        cast_copy_loop_getD (fun x => x) junk rhs.elements _ _ n (by simpa using hn)]
      rw [if_pos hn]
      rw [List.getElem_take]
      rw [List.getD_eq_getElem _ _ (by omega)]

/-- C9 witness: fast-path cast of a 2-element INT32 storage. -/
theorem cast_copy_fast_path_witness :
    storage_count_max_elements 1 [2] ≤ ([5, 6] : List Int).length ∧
    dense_storage_cast_copy_template (fun x : Int => x) 0
        ⟨1, [2], Dtype.INT32, [0], [5, 6]⟩ Dtype.INT32 true =
      some ⟨1, [2], Dtype.INT32, [0], [5, 6]⟩ ∧
    ([5, 6] : List Int).take 2 =
      dense_storage_cast_copy_loop (fun x => x) 0 [5, 6] (List.replicate 2 0) 2 := by
  refine ⟨by decide, ?_, ?_⟩
  · exact ((cast_copy_fast_path (fun x : Int => x) 0
      ⟨1, [2], Dtype.INT32, [0], [5, 6]⟩ (by decide)).1).trans (by decide)
  · exact (by decide : ([5, 6] : List Int).take 2
        = ([5, 6] : List Int).take (storage_count_max_elements 1 [2])).trans
      (((cast_copy_fast_path (fun x : Int => x) 0
        ⟨1, [2], Dtype.INT32, [0], [5, 6]⟩ (by decide)).2).trans (by decide))

/-- C8: both `dense_storage_copy` and `dense_storage_cast_copy_template`
return an absent result when the shape allocation fails, building nothing (the
heap is unchanged); and when the logical element count is zero they skip the
buffer copy yet still return a fully formed empty root (`count = 1`, `src`
self, empty buffer). -/
theorem copy_cast_alloc_failure (σ : Heap) (sid : StorId) (rhs : HStorage)
    (junk : Int) (conv : α → α) (junka : α) (rhs2 : DStorage α) (d : Dtype)
    (hS : σ.stors sid = some rhs) :
    dense_storage_copy σ sid junk false = (σ, none) ∧
    dense_storage_cast_copy_template conv junka rhs2 d false = none ∧
    (storage_count_max_elements rhs.rank rhs.shape = 0 →
      dense_storage_copy σ sid junk true =
        ({ stors := upd σ.stors σ.nextStor (some
              { rank := rhs.rank,
                shape := (List.range rhs.rank).map fun p => rhs.shape.getD p 0,
                dtype := rhs.dtype, offset := List.replicate rhs.rank 0,
                elements := σ.nextBuf, count := 1, src := σ.nextStor }),
           bufs := upd σ.bufs σ.nextBuf (some []),
           nextStor := σ.nextStor + 1, nextBuf := σ.nextBuf + 1 },
         some σ.nextStor)) ∧
    (storage_count_max_elements rhs2.rank rhs2.shape = 0 →
      dense_storage_cast_copy_template conv junka rhs2 d true =
        some { rank := rhs2.rank,
               shape := (List.range rhs2.rank).map fun p => rhs2.shape.getD p 0,
               dtype := d, offset := List.replicate rhs2.rank 0,
               elements := ([] : List α) }) := by
  refine ⟨?_, rfl, ?_, ?_⟩
  · simp only [dense_storage_copy, hS]
    rfl
  · intro hcnt
    simp only [dense_storage_copy, hS]
    rw [if_neg (by simp)]
    rw [if_neg (by omega)]
    rw [hcnt]
    rfl
  · intro hcnt
    simp only [dense_storage_cast_copy_template, dense_storage_create_typed]
    rw [if_neg (by simp)]
    rw [if_neg (by omega)]
    rw [maxel_shape_copy, hcnt]
    rfl

/-- Witness heap for C8: a single zero-extent root. -/
def c8_heap : Heap :=
  ⟨upd (fun _ => none) 0 (some ⟨1, [0], Dtype.INT8, [0], 0, 1, 0⟩),
   upd (fun _ => none) 0 (some []), 1, 1⟩

/-- C8 witness: allocation failure yields an absent result and an unchanged
heap; a zero-element source still yields a valid empty root. -/
theorem copy_cast_alloc_failure_witness :
    c8_heap.stors 0 = some ⟨1, [0], Dtype.INT8, [0], 0, 1, 0⟩ ∧
    dense_storage_copy c8_heap 0 0 false = (c8_heap, none) ∧
    dense_storage_cast_copy_template (fun x : Int => x) 0
      ⟨1, [0], Dtype.INT8, [0], []⟩ Dtype.INT16 false = none ∧
    (dense_storage_copy c8_heap 0 0 true).2 = some 1 ∧
    (dense_storage_copy c8_heap 0 0 true).1.bufs 1 = some [] ∧
    dense_storage_cast_copy_template (fun x : Int => x) 0
      ⟨1, [0], Dtype.INT8, [0], []⟩ Dtype.INT16 true =
      some ⟨1, [0], Dtype.INT16, [0], []⟩ := by
  refine ⟨by decide, ?_, ?_, ?_, ?_, ?_⟩
  · exact (copy_cast_alloc_failure c8_heap 0 ⟨1, [0], Dtype.INT8, [0], 0, 1, 0⟩ 0
      (fun x : Int => x) 0 ⟨1, [0], Dtype.INT8, [0], []⟩ Dtype.INT16 (by decide)).1
  · exact (copy_cast_alloc_failure c8_heap 0 ⟨1, [0], Dtype.INT8, [0], 0, 1, 0⟩ 0
      (fun x : Int => x) 0 ⟨1, [0], Dtype.INT8, [0], []⟩ Dtype.INT16 (by decide)).2.1
  · rw [(copy_cast_alloc_failure c8_heap 0 ⟨1, [0], Dtype.INT8, [0], 0, 1, 0⟩ 0
      (fun x : Int => x) 0 ⟨1, [0], Dtype.INT8, [0], []⟩ Dtype.INT16
      (by decide)).2.2.1 (by decide)]
    rfl
  · rw [(copy_cast_alloc_failure c8_heap 0 ⟨1, [0], Dtype.INT8, [0], 0, 1, 0⟩ 0
      (fun x : Int => x) 0 ⟨1, [0], Dtype.INT8, [0], []⟩ Dtype.INT16
      (by decide)).2.2.1 (by decide)]
    decide
  · exact ((copy_cast_alloc_failure c8_heap 0 ⟨1, [0], Dtype.INT8, [0], 0, 1, 0⟩ 0
      (fun x : Int => x) 0 ⟨1, [0], Dtype.INT8, [0], []⟩ Dtype.INT16
      (by decide)).2.2.2 (by decide)).trans (by decide)

/-- C2 (amended): `dense_storage_get` with a non-single-element slice sets the
new view's `src` to the storage it was applied to — sharing that storage's
buffer reference — and increments that storage's `count`; consequently when
the argument is a root the view's `src` does point to a true root, but
applying `get` to a view produces a view whose `src` is the view, so `src`
chains are not in general of depth 1. -/
theorem get_view_src_is_argument (σ σ2 : Heap) (sid vid : StorId)
    (s : HStorage) (slice : SLICE)
    (hs : σ.stors sid = some s) (hsid : sid < σ.nextStor)
    (hslice : slice.is_one_el = false)
    (hget : dense_storage_get σ sid slice = some (σ2, GetResult.view vid)) :
    vid = σ.nextStor ∧
    σ2.stors vid = some
      { rank := s.rank, shape := slice.lens, dtype := s.dtype,
        offset := slice.coords, elements := s.elements, count := 0,
        src := sid } ∧
    σ2.stors sid = some { s with count := s.count + 1 } ∧
    (s.src = sid →
      (σ2.stors vid).map HStorage.src = some sid ∧
      (σ2.stors sid).map HStorage.src = some sid) := by
  simp only [dense_storage_get, hs, hslice, Bool.false_eq_true, if_false,
    Option.some.injEq, Prod.mk.injEq, GetResult.view.injEq] at hget
  obtain ⟨hσ2, hvid⟩ := hget
  subst hσ2
  subst hvid
  have hne : sid ≠ σ.nextStor := Nat.ne_of_lt hsid
  dsimp only
  refine ⟨rfl, ?_, ?_, ?_⟩
  · rw [upd_same]
  · rw [upd_ne _ _ _ _ hne, upd_same]
  · intro hroot
    refine ⟨?_, ?_⟩
    · rw [upd_same]; simp
    · rw [upd_ne _ _ _ _ hne, upd_same]; simpa using hroot

/-- Initial empty heap for the C2 trace. -/
def c2_heap0 : Heap := ⟨fun _ => none, fun _ => none, 0, 0⟩

/-- C2 trace, step 1: a rank-1 root of 4 elements (id 0). -/
def c2_heap1 : Heap :=
  (dense_storage_create c2_heap0 Dtype.INT64 [4] 1 [] 0 0).1

/-- C2 trace, step 2: slice a 2-element view out of the root. -/
def c2_res2 : Option (Heap × GetResult) :=
  dense_storage_get c2_heap1 0 ⟨[0], [2], false⟩

/-- Heap after the first `get` (view id 1, `src = 0`). -/
def c2_heap2 : Heap :=
  match c2_res2 with
  | some (h, _) => h
  | none => c2_heap0

/-- C2 trace, step 3: slice a view out of the view. -/
def c2_res3 : Option (Heap × GetResult) :=
  dense_storage_get c2_heap2 1 ⟨[1], [1], false⟩

/-- Heap after the second `get` (view id 2, `src = 1`). -/
def c2_heap3 : Heap :=
  match c2_res3 with
  | some (h, _) => h
  | none => c2_heap0

/-- C2 counterexample: after slicing a view out of a view, storage 2's `src`
is storage 1, which is itself a view (its `src` is 0, not itself) — so a
view's `src` does not always point directly to a true root; moreover the
second `get` incremented the view's `count` (0 to 1), not the owning root's
(which stays 2). -/
theorem get_view_src_depth_two :
    c2_res2.map Prod.snd = some (GetResult.view 1) ∧
    c2_res3.map Prod.snd = some (GetResult.view 2) ∧
    (c2_heap3.stors 2).map HStorage.src = some 1 ∧
    (c2_heap3.stors 1).map HStorage.src = some 0 ∧
    (c2_heap3.stors 0).map HStorage.count = some 2 ∧
    (c2_heap3.stors 1).map HStorage.count = some 1 := by
  decide

/-- C2 witness (for the amended theorem): on the root of the C2 trace, the
created view's `src` is the root id 0, which is a true root. -/
theorem get_view_src_is_argument_witness :
    (c2_heap1.stors 0 = some ⟨1, [4], Dtype.INT64, [0], 0, 1, 0⟩ ∧
      0 < c2_heap1.nextStor) ∧
    ((c2_heap2.stors 1).map HStorage.src = some 0 ∧
      (c2_heap2.stors 0).map HStorage.src = some 0) := by
  refine ⟨⟨by decide, by decide⟩, ?_⟩
  exact (get_view_src_is_argument c2_heap1 c2_heap2 0 1
    ⟨1, [4], Dtype.INT64, [0], 0, 1, 0⟩ ⟨[0], [2], false⟩
    (by decide) (by decide) rfl rfl).2.2.2 rfl

/-- C3: creating a view from a root `R` by `dense_storage_get` increments
`R.count` by exactly 1 and changes no other field of `R`, no other storage and
no buffer; destroying that view by `dense_storage_delete_ref` decrements
`R.count` by exactly 1 (restoring `R` exactly), releases only the view's own
record (with its shape and offset), and never frees or modifies any element
buffer. -/
theorem view_lifetime (σ σ2 : Heap) (rid vid : StorId) (R : HStorage)
    (slice : SLICE)
    (hR : σ.stors rid = some R) (hroot : R.src = rid)
    (hrid : rid < σ.nextStor) (hslice : slice.is_one_el = false)
    (hget : dense_storage_get σ rid slice = some (σ2, GetResult.view vid)) :
    vid = σ.nextStor ∧
    σ2.stors rid = some { R with count := R.count + 1 } ∧
    (∀ t, t ≠ rid → t ≠ vid → σ2.stors t = σ.stors t) ∧
    (∀ b, σ2.bufs b = σ.bufs b) ∧
    (dense_storage_delete_ref σ2 vid).stors rid = some R ∧
    (dense_storage_delete_ref σ2 vid).stors vid = none ∧
    (∀ t, t ≠ rid → t ≠ vid →
      (dense_storage_delete_ref σ2 vid).stors t = σ.stors t) ∧
    (∀ b, (dense_storage_delete_ref σ2 vid).bufs b = σ.bufs b) := by
  simp only [dense_storage_get, hR, hslice, Bool.false_eq_true, if_false,
    Option.some.injEq, Prod.mk.injEq, GetResult.view.injEq] at hget
  obtain ⟨hσ2, hvid⟩ := hget
  subst hσ2
  subst hvid
  have hne : rid ≠ σ.nextStor := Nat.ne_of_lt hrid
  dsimp only
  have hstors_rid : (upd (upd σ.stors rid (some { R with count := R.count + 1 }))
      σ.nextStor (some
        { rank := R.rank, shape := slice.lens, dtype := R.dtype,
          offset := slice.coords, elements := R.elements, count := 0,
          src := rid })) rid = some { R with count := R.count + 1 } := by
    rw [upd_ne _ _ _ _ hne, upd_same]
  refine ⟨rfl, hstors_rid, ?_, fun _ => rfl, ?_, ?_, ?_,
    fun b => by rw [delete_ref_bufs]⟩
  · intro t h1 h2
    rw [upd_ne _ _ _ _ h2, upd_ne _ _ _ _ h1]
  · simp only [dense_storage_delete_ref, upd_same, hstors_rid]
    rw [upd_ne _ _ _ _ hne, upd_same]
    simp
  · simp only [dense_storage_delete_ref, upd_same, hstors_rid]
  · intro t h1 h2
    simp only [dense_storage_delete_ref, upd_same, hstors_rid]
    rw [upd_ne _ _ _ _ h2, upd_ne _ _ _ _ h1, upd_ne _ _ _ _ h2,
      upd_ne _ _ _ _ h1]

/-- Heap for the C3 witness: one rank-1 root (id 0) over buffer 0. -/
def c3_heap : Heap :=
  ⟨upd (fun _ => none) 0 (some ⟨1, [3], Dtype.FLOAT64, [0], 0, 1, 0⟩),
   upd (fun _ => none) 0 (some [1, 2, 3]), 1, 1⟩

/-- Heap after the C3 witness `get`. -/
def c3_heap2 : Heap :=
  match dense_storage_get c3_heap 0 ⟨[1], [2], false⟩ with
  | some (h, _) => h
  | none => c3_heap

/-- C3 witness: creating and destroying a view of the concrete root restores
the root record exactly and leaves every buffer untouched. -/
theorem view_lifetime_witness :
    (c3_heap.stors 0 = some ⟨1, [3], Dtype.FLOAT64, [0], 0, 1, 0⟩ ∧
      0 < c3_heap.nextStor) ∧
    (c3_heap2.stors 0 = some ⟨1, [3], Dtype.FLOAT64, [0], 0, 2, 0⟩ ∧
      c3_heap2.bufs 0 = c3_heap.bufs 0 ∧
      (dense_storage_delete_ref c3_heap2 1).stors 0 =
        some ⟨1, [3], Dtype.FLOAT64, [0], 0, 1, 0⟩ ∧
      (dense_storage_delete_ref c3_heap2 1).stors 1 = none ∧
      (dense_storage_delete_ref c3_heap2 1).bufs 0 = c3_heap.bufs 0) := by
  refine ⟨⟨by decide, by decide⟩, ?_⟩
  have h := view_lifetime c3_heap c3_heap2 0 1 ⟨1, [3], Dtype.FLOAT64, [0], 0, 1, 0⟩
    ⟨[1], [2], false⟩ (by decide) rfl (by decide) rfl rfl
  exact ⟨h.2.1, h.2.2.2.1 0, h.2.2.2.2.1, h.2.2.2.2.2.1, h.2.2.2.2.2.2.2 0⟩

/-- C7: `dense_storage_copy` yields a root with the same dtype, rank and
shape, for which `dense_storage_eqeq` answers `true` (under any dispatched
comparison for which equal values are not unequal), whose buffer id is
distinct from the source's, and mutating the copy through
`dense_storage_set` never changes the source's buffer. -/
theorem copy_identity (σ σ2 : Heap) (sid cid : StorId) (S : HStorage)
    (buf : List Int) (junk : Int) (ttable : Dtype → Dtype → Int → Int → Bool)
    (hS : σ.stors sid = some S)
    (hbuf : σ.bufs S.elements = some buf)
    (hc : storage_count_max_elements S.rank S.shape ≤ buf.length)
    (hshape : S.shape.length = S.rank)
    (hsid : sid < σ.nextStor)
    (hfresh : S.elements < σ.nextBuf)
    (hrefl : ∀ x : Int, ttable S.dtype S.dtype x x = false)
    (hcopy : dense_storage_copy σ sid junk true = (σ2, some cid)) :
    σ2.stors cid = some
      { rank := S.rank, shape := S.shape, dtype := S.dtype,
        offset := List.replicate S.rank 0, elements := σ.nextBuf, count := 1,
        src := cid } ∧
    σ.nextBuf ≠ S.elements ∧
    dense_storage_eqeq ttable σ2 sid cid = some true ∧
    (∀ slice val, (dense_storage_set σ2 cid slice val).bufs S.elements
      = σ2.bufs S.elements) := by
  have hne1 : sid ≠ σ.nextStor := Nat.ne_of_lt hsid
  have hne2 : S.elements ≠ σ.nextBuf := Nat.ne_of_lt hfresh
  simp only [dense_storage_copy, hS] at hcopy
  rw [if_neg (by simp)] at hcopy
  simp only [Prod.mk.injEq, Option.some.injEq] at hcopy
  obtain ⟨hσ2, hcid⟩ := hcopy
  subst hσ2
  subst hcid
  dsimp only
  have hC : (upd σ.stors σ.nextStor (some
      { rank := S.rank,
        shape := (List.range S.rank).map fun p => S.shape.getD p 0,
        dtype := S.dtype, offset := List.replicate S.rank 0,
        elements := σ.nextBuf, count := 1, src := σ.nextStor })) σ.nextStor
      = some
      { rank := S.rank, shape := S.shape, dtype := S.dtype,
        offset := List.replicate S.rank 0, elements := σ.nextBuf, count := 1,
        src := σ.nextStor } := by
    rw [upd_same, shape_copy_self _ _ hshape]
  have hsid2 : (upd σ.stors σ.nextStor (some
      { rank := S.rank,
        shape := (List.range S.rank).map fun p => S.shape.getD p 0,
        dtype := S.dtype, offset := List.replicate S.rank 0,
        elements := σ.nextBuf, count := 1, src := σ.nextStor })) sid
      = some S := by
    rw [upd_ne _ _ _ _ hne1]
    exact hS
  have hbufS : (upd σ.bufs σ.nextBuf (some
      (if storage_count_max_elements S.rank S.shape ≠ 0 then
        memcpySeg junk
          (dense_storage_create_elements junk [] 0
            (storage_count_max_elements S.rank S.shape))
          ((σ.bufs S.elements).getD []) 0
          (storage_count_max_elements S.rank S.shape)
      else dense_storage_create_elements junk [] 0
        (storage_count_max_elements S.rank S.shape)))) S.elements
      = some buf := by
    rw [upd_ne _ _ _ _ hne2]
    exact hbuf
  have hels : (if storage_count_max_elements S.rank S.shape ≠ 0 then
      memcpySeg junk
        (dense_storage_create_elements junk [] 0
          (storage_count_max_elements S.rank S.shape))
        ((σ.bufs S.elements).getD []) 0
        (storage_count_max_elements S.rank S.shape)
    else dense_storage_create_elements junk [] 0
      (storage_count_max_elements S.rank S.shape))
      = buf.take (storage_count_max_elements S.rank S.shape) := by
    by_cases hcnt : storage_count_max_elements S.rank S.shape = 0
    · rw [if_neg (by omega), hcnt]
      rfl
    · rw [if_pos hcnt, create_elements_nil junk _ hcnt, hbuf]
      exact memcpySeg_replicate_take junk buf _ hc
  have hbufC : (upd σ.bufs σ.nextBuf (some
      (if storage_count_max_elements S.rank S.shape ≠ 0 then
        memcpySeg junk
          (dense_storage_create_elements junk [] 0
            (storage_count_max_elements S.rank S.shape))
          ((σ.bufs S.elements).getD []) 0
          (storage_count_max_elements S.rank S.shape)
      else dense_storage_create_elements junk [] 0
        (storage_count_max_elements S.rank S.shape)))) σ.nextBuf
      = some (buf.take (storage_count_max_elements S.rank S.shape)) := by
    rw [upd_same, hels]
  refine ⟨hC, Ne.symm hne2, ?_, ?_⟩
  · rw [eqeq_eq_some ttable _ sid σ.nextStor S
      { rank := S.rank, shape := S.shape, dtype := S.dtype,
        offset := List.replicate S.rank 0, elements := σ.nextBuf, count := 1,
        src := σ.nextStor } buf
      (buf.take (storage_count_max_elements S.rank S.shape))
      hsid2 hC hbufS hbufC]
    congr 1
    rw [eqeq_loop_iff]
    intro idx hidx
    have hidx2 : idx < buf.length := by omega
    have htake : (buf.take (storage_count_max_elements S.rank S.shape)).getD idx 0
        = buf.getD idx 0 := by
      rw [List.getD_eq_getElem _ _ (show
          idx < (buf.take (storage_count_max_elements S.rank S.shape)).length by
        rw [List.length_take]
        omega), List.getElem_take, List.getD_eq_getElem _ _ hidx2]
    rw [htake, List.getD_eq_getElem _ _ hidx2]
    exact hrefl _
  · intro slice val
    simp only [dense_storage_set, hC, dense_storage_pos_h, upd_same, hels]
    simp only [upd_ne _ _ _ _ hne2]

/-- Heap for the C7 witness: one rank-1 root of two elements. -/
def c7_heap : Heap :=
  ⟨upd (fun _ => none) 0 (some ⟨1, [2], Dtype.INT64, [0], 0, 1, 0⟩),
   upd (fun _ => none) 0 (some [7, 8]), 1, 1⟩

/-- Heap after the C7 witness copy. -/
def c7_heap2 : Heap := (dense_storage_copy c7_heap 0 0 true).1

/-- C7 witness: copying the concrete root gives an equal storage on a fresh
buffer, and writing into the copy leaves the source buffer untouched. -/
theorem copy_identity_witness :
    (c7_heap.stors 0 = some ⟨1, [2], Dtype.INT64, [0], 0, 1, 0⟩ ∧
      storage_count_max_elements 1 [2] ≤ ([7, 8] : List Int).length ∧
      0 < c7_heap.nextStor ∧ 0 < c7_heap.nextBuf) ∧
    (c7_heap2.stors 1 = some ⟨1, [2], Dtype.INT64, [0], 1, 1, 1⟩ ∧
      (1 : Nat) ≠ 0 ∧
      dense_storage_eqeq (fun _ _ x y => x != y) c7_heap2 0 1 = some true ∧
      (dense_storage_set c7_heap2 1 ⟨[0], [1], true⟩ 99).bufs 0
        = c7_heap2.bufs 0) := by
  refine ⟨⟨by decide, by decide, by decide, by decide⟩, ?_⟩
  have h := copy_identity c7_heap c7_heap2 0 1 ⟨1, [2], Dtype.INT64, [0], 0, 1, 0⟩
    [7, 8] 0 (fun _ _ x y => x != y) (by decide) (by decide) (by decide)
    (by decide) (by decide) (by decide) (fun x => by simp) rfl
  exact ⟨h.1, h.2.1, h.2.2.1, h.2.2.2 ⟨[0], [1], true⟩ 99⟩

/-- The contents of the rank-1 sub-region a view designates, per the spec's
layout: element `k` is the root-buffer entry at the flat position computed by
`dense_storage_pos` from coordinate `[k]`, the view's offset, and the root's
shape. -/
def viewedRegionRank1 (rootBuf : List Int) (off len : Nat)
    (srcShape : List Nat) : List Int :=
  (List.range len).map fun k =>
    rootBuf.getD (dense_storage_pos [k] [off] srcShape 1) 0

/-- Initial empty heap for the C10 trace. -/
def c10_heap0 : Heap := ⟨fun _ => none, fun _ => none, 0, 0⟩

/-- C10 trace: a rank-1 root with contents `[10, 20, 30, 40]`. -/
def c10_heap1 : Heap :=
  (dense_storage_create c10_heap0 Dtype.INT64 [4] 1 [10, 20, 30, 40] 4 0).1

/-- C10 trace: a 2-element view with offset `[2]` (designating `[30, 40]`). -/
def c10_heap2 : Heap :=
  match dense_storage_get c10_heap1 0 ⟨[2], [2], false⟩ with
  | some (h, _) => h
  | none => c10_heap0

/-- C10 trace: copying the view. -/
def c10_res3 : Heap × Option StorId := dense_storage_copy c10_heap2 1 0 true

/-- C10: both `dense_storage_copy` and `dense_storage_cast_copy` ignore the
source storage's offset — for any view `V` each reads the first
`product(V.shape)` elements starting at index 0 of the shared root buffer
(`copy` as a raw copy; `castCopy` as a raw copy on the same-dtype path and as
an element-wise conversion of exactly those positions otherwise), and the cast
template's result is invariant under every change of the source's offset
field; on the concrete trace, copying or casting the view designating
`[30, 40]` (offset `[2]`) of root `[10, 20, 30, 40]` produces contents
`[10, 20]`, not the viewed sub-region. -/
theorem copy_ignores_offset (σ σ2 : Heap) (vid cid : StorId)
    (V : HStorage) (rootBuf : List Int) (junk : Int) (conv : Int → Int)
    (d : Dtype)
    (hV : σ.stors vid = some V)
    (hbuf : σ.bufs V.elements = some rootBuf)
    (hc : storage_count_max_elements V.rank V.shape ≤ rootBuf.length)
    (hcopy : dense_storage_copy σ vid junk true = (σ2, some cid)) :
    σ2.bufs σ.nextBuf =
      some (rootBuf.take (storage_count_max_elements V.rank V.shape)) ∧
    (dense_storage_cast_copy conv σ vid d junk true).2 = some σ.nextStor ∧
    (dense_storage_cast_copy conv σ vid d junk true).1.bufs σ.nextBuf =
      some (if d = V.dtype
        then rootBuf.take (storage_count_max_elements V.rank V.shape)
        else (List.range (storage_count_max_elements V.rank V.shape)).map
          fun k => conv (rootBuf.getD k junk)) ∧
    (∀ (rhs : DStorage Int) (offset2 : List Nat) (ok : Bool),
      dense_storage_cast_copy_template conv junk
          { rhs with offset := offset2 } d ok
        = dense_storage_cast_copy_template conv junk rhs d ok) ∧
    c10_res3.2 = some 2 ∧
    c10_res3.1.bufs 1 = some [10, 20] ∧
    (dense_storage_cast_copy (fun x => x) c10_heap2 1 Dtype.INT32 0 true).1.bufs 1
      = some [10, 20] ∧
    viewedRegionRank1 [10, 20, 30, 40] 2 2 [4] = [30, 40] ∧
    c10_res3.1.bufs 1 ≠ some (viewedRegionRank1 [10, 20, 30, 40] 2 2 [4]) ∧
    (dense_storage_cast_copy (fun x => x) c10_heap2 1 Dtype.INT32 0 true).1.bufs 1
      ≠ some (viewedRegionRank1 [10, 20, 30, 40] 2 2 [4]) := by
  refine ⟨?_, ?_, ?_, fun rhs offset2 ok => rfl, by decide, by decide, by decide,
    by decide, by decide, by decide⟩
  · simp only [dense_storage_copy, hV] at hcopy
    rw [if_neg (by simp)] at hcopy
    simp only [Prod.mk.injEq, Option.some.injEq] at hcopy
    obtain ⟨hσ2, hcid⟩ := hcopy
    subst hσ2
    dsimp only
    rw [upd_same]
    congr 1
    by_cases hcnt : storage_count_max_elements V.rank V.shape = 0
    · rw [if_neg (by omega), hcnt]
      rfl
    · rw [if_pos hcnt, create_elements_nil junk _ hcnt, hbuf]
      exact memcpySeg_replicate_take junk rootBuf _ hc
  · simp only [dense_storage_cast_copy, hV]
    rw [if_neg (by simp)]
  · simp only [dense_storage_cast_copy, hV]
    rw [if_neg (by simp)]
    dsimp only
    rw [upd_same]
    congr 1
    by_cases hcnt : storage_count_max_elements V.rank V.shape = 0
    · rw [if_neg (by omega), hcnt]
      by_cases hd : d = V.dtype
      · rw [if_pos hd]
        rfl
      · rw [if_neg hd]
        rfl
    · rw [if_pos hcnt]
      by_cases hd : d = V.dtype
      · rw [if_pos hd, if_pos hd, create_elements_nil junk _ hcnt, hbuf]
        exact memcpySeg_replicate_take junk rootBuf _ hc
      · rw [if_neg hd, if_neg hd, create_elements_nil junk _ hcnt, hbuf]
        exact cast_copy_loop_replicate conv junk rootBuf _

/-- C10 witness: instantiating the universal clauses on the trace view — the
copy has contents `[10, 20]` and a cast to a different dtype under the
conversion `x + 1` has contents `[11, 21]`, both read from buffer index 0,
not from the `[30, 40]` sub-region the view designates. -/
theorem copy_ignores_offset_witness :
    (c10_heap2.stors 1 = some ⟨1, [2], Dtype.INT64, [2], 0, 0, 0⟩ ∧
      c10_heap2.bufs 0 = some [10, 20, 30, 40] ∧
      storage_count_max_elements 1 [2] ≤ ([10, 20, 30, 40] : List Int).length) ∧
    c10_res3.1.bufs 1 = some (([10, 20, 30, 40] : List Int).take 2) ∧
    (dense_storage_cast_copy (fun x => x + 1) c10_heap2 1 Dtype.INT32 0
      true).1.bufs 1 = some [11, 21] := by
  refine ⟨⟨by decide, by decide, by decide⟩, ?_, ?_⟩
  · exact ((copy_ignores_offset c10_heap2 c10_res3.1 1 2
      ⟨1, [2], Dtype.INT64, [2], 0, 0, 0⟩ [10, 20, 30, 40] 0 (fun x => x + 1)
      Dtype.INT32 (by decide) (by decide) (by decide) rfl).1).trans (by decide)
  · exact ((copy_ignores_offset c10_heap2 c10_res3.1 1 2
      ⟨1, [2], Dtype.INT64, [2], 0, 0, 0⟩ [10, 20, 30, 40] 0 (fun x => x + 1)
      Dtype.INT32 (by decide) (by decide) (by decide) rfl).2.2.1).trans
      (by decide)

end NMatrix
